import Mathlib

/-!
Verification development for the hands-and-voice agent pipeline.

The repository contains two near-duplicate implementations of the same
pipeline:

* the starter kit: `src/starter-kit/js/agent-client.js` (orchestrator,
  class `AgentClient`) and `src/starter-kit/js/llm-client.js` (intent
  resolver, class `LLMClient`);
* the demo app: the `AgentClient` of `src/unnamed/part_003`, the
  `LLMClient` of `src/js/webmcp-provider.js`, and the application tools of
  `src/js/fidelity-app.js`.

This file embeds both shallowly.  Conventions of the embedding:

* JavaScript values travelling through the pipeline are modelled by the
  inductive `JVal`; JS numbers are modelled as exact rationals rather
  than IEEE doubles, represented as unreduced integer fractions (`JNum`)
  so that the kernel can evaluate them.  Every number a claim inspects is
  a whole number, for which the representation `n/1` is canonical.
* A JS argument object is a list of key/value pairs (`Args`);
  an absent (`undefined`) argument object is `Option.none`.
* A throwing `async` executable is modelled as returning
  `Except String JVal` (the `String` is `error.message`); state mutated by
  a tool is threaded explicitly (`σ`).
* The correlation identifiers that JS builds from `Date.now()` and
  `Math.random()` (`thread_...`, `tool_..._...`) are modelled by a
  deterministic fresh-counter generator producing `Nat` ids, exactly the
  replacement the repository design notes recommend for tests.
  Timestamps (`new Date().toISOString()` etc.) are abstracted to fixed
  strings; they are never inspected by the pipeline.
* `await`ed external I/O (the OpenAI completion call) is modelled by
  passing its outcome in as data (`RemoteResult`, `Option String`).
-/

namespace AgentPipeline

/-- An exact rational as an unreduced fraction.  All denominators arising
in this pipeline are positive (products of the literals 1, 2 and 100). -/
structure JNum where
  num : Int
  den : Int
deriving DecidableEq

instance (n : Nat) : OfNat JNum n := ⟨⟨n, 1⟩⟩

def JNum.ofNat (n : Nat) : JNum := ⟨n, 1⟩

def JNum.ofInt (n : Int) : JNum := ⟨n, 1⟩

instance : Add JNum := ⟨fun a b => ⟨a.num * b.den + b.num * a.den, a.den * b.den⟩⟩

instance : Mul JNum := ⟨fun a b => ⟨a.num * b.num, a.den * b.den⟩⟩

instance : Div JNum := ⟨fun a b => ⟨a.num * b.den, a.den * b.num⟩⟩

instance : Pow JNum Nat := ⟨fun a n => ⟨a.num ^ n, a.den ^ n⟩⟩

/-- Truthiness of a JS number: `0` is falsy. -/
def JNum.isZero (a : JNum) : Bool := a.num == 0

/-- `Math.floor` (denominator positive in this pipeline). -/
def JNum.floor (a : JNum) : Int := a.num.fdiv a.den

/-- `Math.round x` is `⌊x + 1/2⌋`. -/
def JNum.round (a : JNum) : Int := (a + ⟨1, 2⟩).floor

/-- JSON-like JavaScript values (numbers as exact rationals). -/
inductive JVal where
  | null
  | bool (b : Bool)
  | num (q : JNum)
  | str (s : String)
  | arr (elems : List JVal)
  | obj (fields : List (String × JVal))

/-- A JS argument object: ordered key/value pairs. -/
abbrev Args := List (String × JVal)

/-- `args.key` member access (absent key reads as `undefined`, i.e. `none`). -/
def getField (a : Args) (key : String) : Option JVal :=
  List.lookup key a

/-- A tool-call request produced by the intent resolver
(`{ name, args }`; the demo resolver sometimes omits `args` entirely,
hence the `Option`). -/
structure Call where
  name : String
  args : Option Args

/-- `call.args || \x7b\x7d`: the argument object, an absent one reading as empty. -/
def Call.argsOrEmpty (c : Call) : Args :=
  c.args.getD []

/-- A registered WebMCP tool (`webmcp-provider.js`): a name, a description
and an executable.  The executable takes the (possibly `undefined`)
argument object and the current application state and either returns a
result or throws (`Except.error message`), possibly mutating the state. -/
structure Tool (σ : Type) where
  name : String
  description : String
  execute : Option Args → σ → Except String JVal × σ

/-- AG-UI protocol events (`src/unnamed/part_002`), restricted to the
variants the two orchestrators emit.  Correlation ids are `Nat` (see the
header).  `runError` carries `some (threadId, runId)` for the starter
kit's `RunErrorEvent` and `none` for the demo's raw
`\x7btype: RUN_ERROR, message, code\x7d` object, which carries no ids. -/
inductive Event where
  | runStarted (threadId runId : Nat)
  | runFinished (threadId runId : Nat) (status : String)
  | runError (ids : Option (Nat × Nat)) (message code : String)
  | toolCallStart (toolCallId : Nat) (toolName : String) (messageId : Nat)
  | toolCallArgs (toolCallId : Nat) (args : Args)
  | toolCallEnd (toolCallId : Nat)
  | toolCallResult (messageId toolCallId : Nat) (result : JVal)
  | textMessageStart (messageId : Nat) (role : String)
  | textMessageContent (messageId : Nat) (delta : String)
  | textMessageEnd (messageId : Nat)
  | custom (message : String)

def Event.isRunStarted : Event → Bool
  | .runStarted _ _ => true
  | _ => false

def Event.isRunFinished : Event → Bool
  | .runFinished _ _ _ => true
  | _ => false

def Event.isRunError : Event → Bool
  | .runError _ _ _ => true
  | _ => false

def Event.isToolCallStart : Event → Bool
  | .toolCallStart _ _ _ => true
  | _ => false

def Event.isToolCallEnd : Event → Bool
  | .toolCallEnd _ => true
  | _ => false

def Event.isToolCallResult : Event → Bool
  | .toolCallResult _ _ _ => true
  | _ => false

def Event.isCustom : Event → Bool
  | .custom _ => true
  | _ => false

/-- The tool-call correlation id carried by an event, if any. -/
def Event.tcid : Event → Option Nat
  | .toolCallStart i _ _ => some i
  | .toolCallArgs i _ => some i
  | .toolCallEnd i => some i
  | .toolCallResult _ i _ => some i
  | _ => none

/-- True of a `tool-call-arguments` event whose serialized argument object
is empty. -/
def Event.isEmptyArgsEvent : Event → Bool
  | .toolCallArgs _ a => a.isEmpty
  | _ => false

/-- Whether the last event of a sequence is a `run-finished` event. -/
def lastIsRunFinished (evs : List Event) : Bool :=
  match evs.getLast? with
  | some e => e.isRunFinished
  | none => false

/-! ## String utilities mirroring the JS string/regex operations -/

/-- `s.toLowerCase()`, modelled as ASCII per-character lowering (every
string the keyword rules test against is ASCII). -/
def toLowerStr (s : String) : String :=
  ⟨s.toList.map Char.toLower⟩

/-- `hay.includes(needle)`. -/
def containsSub (hay needle : String) : Bool :=
  hay.toList.tails.any fun t => needle.toList.isPrefixOf t

/-- Value of a run of decimal digits (`parseInt` on a `\d+` capture). -/
def digitsVal (ds : List Char) : Nat :=
  ds.foldl (fun acc c => acc * 10 + (c.toNat - 48)) 0

/-- One attempt of the regex `(\d+)\s*years?` anchored at the current
position: a digit run, optional whitespace, then the literal `year`. -/
def tryYears (l : List Char) : Option Nat :=
  let ds := l.takeWhile Char.isDigit
  if ds.isEmpty then none
  else
    let rest := (l.dropWhile Char.isDigit).dropWhile Char.isWhitespace
    if "year".toList.isPrefixOf rest then some (digitsVal ds) else none

/-- First match of `/(\d+)\s*years?/` in the string (the JS regex engine
scans positions left to right), returning the captured number. -/
def findYears : List Char → Option Nat
  | [] => none
  | c :: rest =>
    match tryYears (c :: rest) with
    | some n => some n
    | none => findYears rest

/-- One attempt of `\$?(\d+)\s*(?:per month|monthly)` anchored at the
current position. -/
def tryMonthly (l : List Char) : Option Nat :=
  let l1 := match l with
    | '$' :: t => t
    | _ => l
  let ds := l1.takeWhile Char.isDigit
  if ds.isEmpty then none
  else
    let rest := (l1.dropWhile Char.isDigit).dropWhile Char.isWhitespace
    if "per month".toList.isPrefixOf rest || "monthly".toList.isPrefixOf rest then
      some (digitsVal ds)
    else none

/-- First match of `/\$?(\d+)\s*(?:per month|monthly)/`. -/
def findMonthly : List Char → Option Nat
  | [] => none
  | c :: rest =>
    match tryMonthly (c :: rest) with
    | some n => some n
    | none => findMonthly rest

/-- Whether the regex fragment `pre.?post` (a literal, one optional
arbitrary character, another literal) matches anywhere in `s`.  Used for
`high.?risk`, `medium.?risk`, `low.?risk`; matching is performed on the
lowercased string, which models the `/i` flag for these ASCII patterns. -/
def matchesOptChar (pre post s : String) : Bool :=
  s.toList.tails.any fun t =>
    pre.toList.isPrefixOf t &&
      (post.toList.isPrefixOf (t.drop pre.length) ||
        post.toList.isPrefixOf (t.drop (pre.length + 1)))

/-! ## Intent resolver, local (keyword) strategy

`getToolCallsFromKeywords` of `src/starter-kit/js/llm-client.js` (generic
rules) and of `src/js/webmcp-provider.js` (demo rules).  Both lowercase
the prompt and test independent substring/regex rules in order, appending
requests.  Each rule condition is a named definition so that the
no-rule-matches predicate can refer to exactly the same expressions. -/

def skWantsShow (l : String) : Bool :=
  containsSub l "show" || containsSub l "get" || containsSub l "display" || containsSub l "view"

def skWantsRefresh (l : String) : Bool :=
  containsSub l "refresh" || containsSub l "reload" || containsSub l "update" || containsSub l "fetch"

def skWantsAnalyze (l : String) : Bool :=
  containsSub l "analyze" || containsSub l "analysis" || containsSub l "examine" || containsSub l "insight"

def skWantsReport (l : String) : Bool :=
  containsSub l "report" || containsSub l "generate" || containsSub l "create" || containsSub l "export"

/-- Starter-kit local strategy (`llm-client.js`, `getToolCallsFromKeywords`).
The `await`ed 100 ms pacing delay has no observable effect and is dropped. -/
def skKeywords (prompt : String) : List Call :=
  let l := toLowerStr prompt
  (if skWantsShow l then [⟨"getAppData", some []⟩] else []) ++
  (if skWantsRefresh l then [⟨"refreshData", some []⟩] else []) ++
  (if skWantsAnalyze l then [⟨"analyzeData", some []⟩] else []) ++
  (if skWantsReport l then [⟨"generateReport", some []⟩] else [])

/-- No starter-kit keyword rule matches the prompt. -/
def noRuleMatchesSK (prompt : String) : Bool :=
  let l := toLowerStr prompt
  !(skWantsShow l || skWantsRefresh l || skWantsAnalyze l || skWantsReport l)

def demoWantsPortfolio (l : String) : Bool :=
  containsSub l "show" && (containsSub l "portfolio" || containsSub l "allocation")

def demoWantsRebalance (l : String) : Bool :=
  containsSub l "diversify" || containsSub l "rebalance"

def demoRebalanceStrategy (l : String) : String :=
  if containsSub l "aggressive" || containsSub l "risky" || containsSub l "growth" then "aggressive"
  else if containsSub l "conservative" || containsSub l "safe" || containsSub l "stable" then "conservative"
  else "moderate"

def demoWantsMoreAggressive (l : String) : Bool :=
  containsSub l "make it more aggressive" || containsSub l "increase risk"

def demoWantsConservative (l : String) : Bool :=
  containsSub l "make it conservative" || containsSub l "reduce risk"

def demoWantsRetirement (l : String) : Bool :=
  containsSub l "retirement" &&
    (containsSub l "projection" || containsSub l "plan" || containsSub l "future")

/-- Argument object of the retirement rule: keys set only when
`/(\d+)\s*years?/` resp. `/\$?(\d+)\s*(?:per month|monthly)/` matched. -/
def demoRetirementArgs (l : String) : Args :=
  (match findYears l.toList with
   | some n => [("yearsToRetirement", JVal.num (.ofNat n))]
   | none => []) ++
  (match findMonthly l.toList with
   | some n => [("monthlyContribution", JVal.num (.ofNat n))]
   | none => [])

def demoWantsAnalysis (l : String) : Bool :=
  (containsSub l "analyze" || containsSub l "review") && containsSub l "portfolio"

def matchesAggressivePattern (l : String) : Bool :=
  containsSub l "aggressive" || containsSub l "growth" || containsSub l "risky" ||
    matchesOptChar "high" "risk" l

def matchesModeratePattern (l : String) : Bool :=
  containsSub l "moderate" || containsSub l "balanced" || matchesOptChar "medium" "risk" l

def matchesConservativePattern (l : String) : Bool :=
  containsSub l "conservative" || containsSub l "safe" || matchesOptChar "low" "risk" l ||
    containsSub l "stable"

def demoWantsCommand (l : String) : Bool :=
  containsSub l "set" || containsSub l "change" || containsSub l "switch"

/-- The `strategyPatterns` loop: the first strategy (in entry order
aggressive, moderate, conservative) whose pattern matches, provided a
set/change/switch word is present; the loop `break`s after one push. -/
def demoStrategyCmd (l : String) : Option String :=
  if matchesAggressivePattern l && demoWantsCommand l then some "aggressive"
  else if matchesModeratePattern l && demoWantsCommand l then some "moderate"
  else if matchesConservativePattern l && demoWantsCommand l then some "conservative"
  else none

/-- Demo local strategy (`webmcp-provider.js`, `getToolCallsFromKeywords`).
Note that the first rule pushes `\x7b name: 'getPortfolio' \x7d` with no `args`
key at all, modelled as `none`. -/
def demoKeywords (prompt : String) : List Call :=
  let l := toLowerStr prompt
  (if demoWantsPortfolio l then [⟨"getPortfolio", none⟩] else []) ++
  (if demoWantsRebalance l then
     [⟨"getPortfolio", none⟩,
      ⟨"rebalancePortfolio", some [("strategy", JVal.str (demoRebalanceStrategy l))]⟩]
   else []) ++
  (if demoWantsMoreAggressive l then
     [⟨"rebalancePortfolio", some [("strategy", JVal.str "aggressive")]⟩]
   else []) ++
  (if demoWantsConservative l then
     [⟨"rebalancePortfolio", some [("strategy", JVal.str "conservative")]⟩]
   else []) ++
  (if demoWantsRetirement l then
     [⟨"getRetirementProjection", some (demoRetirementArgs l)⟩]
   else []) ++
  (if demoWantsAnalysis l then [⟨"getPortfolio", none⟩] else []) ++
  (match demoStrategyCmd l with
   | some strategy => [⟨"rebalancePortfolio", some [("strategy", JVal.str strategy)]⟩]
   | none => [])

/-- No demo keyword rule matches the prompt. -/
def noRuleMatchesDemo (prompt : String) : Bool :=
  let l := toLowerStr prompt
  !(demoWantsPortfolio l || demoWantsRebalance l || demoWantsMoreAggressive l ||
    demoWantsConservative l || demoWantsRetirement l || demoWantsAnalysis l ||
    (demoStrategyCmd l).isSome)

/-! ## Intent resolver, remote (OpenAI) strategy

`getToolCallsFromOpenAI` (same structure in `llm-client.js` and
`webmcp-provider.js`).  The wire format of the completion service is a
black box per the spec, so the `fetch`/parse pipeline is modelled by the
outcome it can produce. -/

/-- One entry of `data.choices[0].message.tool_calls`.  `argumentsJson`
models `JSON.parse(toolCall.function.arguments || '\x7b\x7d')`: `Except.error`
is a malformed argument string (a thrown `SyntaxError`), and an absent
`arguments` field is `.ok []`. -/
structure RemoteToolCall where
  type : String
  name : String
  argumentsJson : Except String Args

/-- Outcome of the remote completion call, as observed by the `try` block
of `getToolCallsFromOpenAI`. -/
inductive RemoteResult where
  | networkFailure (message : String)
  | httpFailure (status : Nat) (statusText : String)
  | malformedBody (message : String)
  | success (toolCalls : List RemoteToolCall)

/-- The extraction loop over `tool_calls`: entries with `type ===
'function'` contribute a request; a malformed argument string throws out
of the loop. -/
def extractRemoteCalls : List RemoteToolCall → Except String (List Call)
  | [] => .ok []
  | tc :: rest =>
    if tc.type == "function" then
      match tc.argumentsJson with
      | .error m => .error m
      | .ok args =>
        match extractRemoteCalls rest with
        | .error m => .error m
        | .ok calls => .ok (⟨tc.name, some args⟩ :: calls)
    else extractRemoteCalls rest

/-- Whether the remote call failed in one of the ways the `catch` clause
observes (network error, non-success HTTP status, malformed response). -/
def remoteFailed : RemoteResult → Bool
  | .networkFailure _ => true
  | .httpFailure _ _ => true
  | .malformedBody _ => true
  | .success tcs =>
    match extractRemoteCalls tcs with
    | .error _ => true
    | .ok _ => false

/-- `getToolCallsFromOpenAI`, parametrized by the keyword resolver of the
same class (`skKeywords` for the starter kit, `demoKeywords` for the
demo): every failure is caught and falls back to the local strategy on
the same prompt; nothing is rethrown to the orchestrator. -/
def getToolCallsFromOpenAI (keywords : String → List Call) (prompt : String)
    (remote : RemoteResult) : List Call :=
  match remote with
  | .networkFailure _ => keywords prompt
  | .httpFailure _ _ => keywords prompt
  | .malformedBody _ => keywords prompt
  | .success tcs =>
    match extractRemoteCalls tcs with
    | .error _ => keywords prompt
    | .ok calls => calls

/-! ## The demo application (`fidelity-app.js`) -/

/-- Portfolio allocation percentages.  Every allocation the code ever
assigns is a triple of whole numbers, so the fields are `Int`. -/
structure Allocation where
  stocks : Int
  bonds : Int
  cash : Int
deriving DecidableEq

/-- The mutable `FidelityApp` state reachable from its tools (DOM
rendering is presentation and out of scope). -/
structure FidelityState where
  portfolio : Allocation
  portfolioHistory : List String
  retirementProjection : Option JVal

/-- The constructor's initial state: 50/30/20, no history, no projection. -/
def initialFidelityState : FidelityState :=
  ⟨⟨50, 30, 20⟩, [], none⟩

def calculateTotalValue (s : FidelityState) : Int :=
  125000 + s.portfolio.stocks * 1000 + s.portfolio.bonds * 500

def getRiskLevel (s : FidelityState) : String :=
  if s.portfolio.stocks ≥ 70 then "Aggressive"
  else if s.portfolio.stocks ≥ 50 then "Moderate"
  else "Conservative"

/-- `addToHistory` (the `toLocaleTimeString` timestamp is abstracted away;
the pipeline never reads history entries). -/
def addToHistory (s : FidelityState) (action : String) : FidelityState :=
  { s with portfolioHistory := s.portfolioHistory ++ [action] }

def allocationJson (a : Allocation) : JVal :=
  .obj [("stocks", .num (.ofInt a.stocks)), ("bonds", .num (.ofInt a.bonds)),
        ("cash", .num (.ofInt a.cash))]

/-- String interpolation of an argument value (`$\x7bargs.strategy\x7d`); only
ever a string in practice, other cases abstracted. -/
def jsDisplay : Option JVal → String
  | none => "undefined"
  | some (.str s) => s
  | some _ => "[value]"

/-- Reading a member of a possibly `undefined` argument object throws the
TypeError JS raises; with an object present, `args.key === "value"`. -/
def strategyIs (a : Args) (v : String) : Bool :=
  match getField a "strategy" with
  | some (.str s) => s == v
  | _ => false

/-- The `getPortfolio` tool: reports the allocation, value and risk level
without modifying anything (`lastUpdated` timestamp abstracted). -/
def getPortfolioTool : Tool FidelityState where
  name := "getPortfolio"
  description := "Get the current portfolio allocation and performance metrics"
  execute := fun _ s =>
    (.ok (.obj [("allocation", allocationJson s.portfolio),
                ("totalValue", .num (.ofInt (calculateTotalValue s))),
                ("riskLevel", .str (getRiskLevel s)),
                ("lastUpdated", .str "1970-01-01T00:00:00.000Z")]), s)

/-- The `rebalancePortfolio` tool.  `aggressive` sets 70/20/10,
`moderate` sets 60/30/10, anything else (including a missing or
unrecognized strategy) sets 40/40/20.  Invoked on an `undefined`
argument object (the demo orchestrator passes `call.args` through), the
member access `args.strategy` throws. -/
def rebalancePortfolioTool : Tool FidelityState where
  name := "rebalancePortfolio"
  description := "Rebalance the portfolio based on a given strategy (conservative, moderate, aggressive)"
  execute := fun oargs s =>
    match oargs with
    | none =>
      (.error "Cannot read properties of undefined (reading \x27strategy\x27)", s)
    | some args =>
      let oldPortfolio := s.portfolio
      let newPortfolio : Allocation :=
        if strategyIs args "aggressive" then ⟨70, 20, 10⟩
        else if strategyIs args "moderate" then ⟨60, 30, 10⟩
        else ⟨40, 40, 20⟩
      let s1 := addToHistory { s with portfolio := newPortfolio }
        ("Rebalanced to " ++ jsDisplay (getField args "strategy") ++ " strategy")
      (.ok (.obj [("oldAllocation", allocationJson oldPortfolio),
                  ("newAllocation", allocationJson newPortfolio),
                  ("strategy", (getField args "strategy").getD .null),
                  ("totalValue", .num (.ofInt (calculateTotalValue s1))),
                  ("riskLevel", .str (getRiskLevel s1))]), s1)

/-- `args.key || default` for the numeric retirement arguments (`0` is
falsy; non-numeric argument values, which neither resolver produces, are
abstracted to the default). -/
def numArgOr (a : Args) (key : String) (dflt : JNum) : JNum :=
  match getField a key with
  | some (.num q) => if q.isZero then dflt else q
  | _ => dflt

/-- The `getRetirementProjection` tool.  IEEE double arithmetic is
modelled exactly over `Rat`; `Math.pow` is taken at the (always whole in
this pipeline) number of years; `Math.round x` is `⌊x + 1/2⌋`.  It
stores the projection and a history entry but never touches the
allocation. -/
def getRetirementProjectionTool : Tool FidelityState where
  name := "getRetirementProjection"
  description := "Get retirement savings projection based on current portfolio"
  execute := fun oargs s =>
    match oargs with
    | none =>
      (.error "Cannot read properties of undefined (reading \x27yearsToRetirement\x27)", s)
    | some args =>
      let yearsToRetirement := numArgOr args "yearsToRetirement" 20
      let monthlyContribution := numArgOr args "monthlyContribution" 500
      let currentValue := JNum.ofInt (calculateTotalValue s)
      let projectedGrowthRate :=
        JNum.ofInt s.portfolio.stocks * ⟨7, 100⟩ + JNum.ofInt s.portfolio.bonds * ⟨4, 100⟩ +
          JNum.ofInt s.portfolio.cash * ⟨2, 100⟩
      let futureValue :=
        currentValue * (1 + projectedGrowthRate / 100) ^ yearsToRetirement.floor.toNat
      let contributionsValue := monthlyContribution * 12 * yearsToRetirement
      let projectionData : JVal :=
        .obj [("currentValue", .num currentValue),
              ("projectedValue", .num (.ofInt (futureValue + contributionsValue).round)),
              ("yearsToRetirement", .num yearsToRetirement),
              ("monthlyContribution", .num monthlyContribution),
              ("projectedGrowthRate", .num (JNum.ofInt (projectedGrowthRate * 100).round / 100)),
              ("totalContributions", .num contributionsValue)]
      let s1 := addToHistory
        { s with retirementProjection := some projectionData }
        ("Generated " ++ toString yearsToRetirement.floor ++ "-year retirement projection")
      (.ok projectionData, s1)

/-- The registry in registration order (`registerWithWebMCP`;
`WebMCPProvider.getTools` returns `Map` insertion order). -/
def fidelityTools : List (Tool FidelityState) :=
  [getPortfolioTool, rebalancePortfolioTool, getRetirementProjectionTool]

/-! ## Shared orchestrator pieces -/

/-- `this.tools.find(t => t.name === call.name)`. -/
def findTool {σ : Type} (tools : List (Tool σ)) (name : String) : Option (Tool σ) :=
  tools.find? fun t => t.name == name

/-- The serialized `\x7b error: toolError.message, success: false \x7d` failure
payload (field order as written in the source object literal). -/
def failurePayload (message : String) : JVal :=
  .obj [("error", .str message), ("success", .bool false)]

/-- `Array.join(', ')` over tool names. -/
def joinComma : List String → String
  | [] => ""
  | [x] => x
  | x :: xs => x ++ ", " ++ joinComma xs

/-- `response.split(' ')` (single-space separator, JS semantics: empty
fragments for consecutive spaces are kept). -/
def splitSpaceAux : List Char → List Char → List String
  | [], acc => [⟨acc.reverse⟩]
  | ' ' :: t, acc => ⟨acc.reverse⟩ :: splitSpaceAux t []
  | c :: t, acc => splitSpaceAux t (c :: acc)

def jsSplitSpace (s : String) : List String :=
  splitSpaceAux s.toList []

/-- The word-by-word streaming chunks: `(i === 0 ? '' : ' ') + words[i]`. -/
def wordChunks (response : String) : List String :=
  (jsSplitSpace response).enum.map fun p => (if p.1 == 0 then "" else " ") ++ p.2

/-- Mode bits of `LLMClient` (`useRealLLM`, `this.apiKey` as a Bool). -/
structure LLMMode where
  useRealLLM : Bool
  hasApiKey : Bool

/-! ## Starter-kit orchestrator (`src/starter-kit/js/agent-client.js`)

`processPrompt` is an async generator; the model computes the full list
of events it yields, together with the final application state, the
final `isProcessing` flag, and a log of tool-executable invocations (one
entry, the tool name, appended at each `await tool.execute(...)` in the
source — the instrumentation needed to state the execute-exactly-once
claims).  The `await`ed outcomes of external I/O are inputs:
`resolve` is the outcome of `this.llmClient.getToolCalls(prompt)` (which
can in principle throw, reaching the `catch`), and `remote` is the
content produced by the second OpenAI call of
`llmClient.generateIntelligentResponse` (`none` for any failure, which
that method catches internally). -/

/-- Events of the success branch of the per-tool `try`, and of the
`catch (toolError)` branch: `tool-call-ended` then `tool-call-result`
with the result resp. the failure payload. -/
def outcomeEvents (tcId mid : Nat) (res : Except String JVal) : List Event :=
  match res with
  | .ok v => [.toolCallEnd tcId, .toolCallResult mid tcId v]
  | .error m => [.toolCallEnd tcId, .toolCallResult mid tcId (failurePayload m)]

/-- `if (call.args && Object.keys(call.args).length > 0)`: the
`tool-call-arguments` event, emitted only for a present, non-empty
argument object. -/
def skArgsEvents (tcId : Nat) (call : Call) : List Event :=
  match call.args with
  | some a => if a.isEmpty then [] else [.toolCallArgs tcId a]
  | none => []

/-- Complete starter-kit event block of one resolved, found call. -/
def callBlock (tcId : Nat) (call : Call) (res : Except String JVal) : List Event :=
  .toolCallStart tcId call.name tcId :: (skArgsEvents tcId call ++ outcomeEvents tcId tcId res)

/-- Result of the starter-kit tool loop. -/
structure LoopOut (σ : Type) where
  events : List Event
  state : σ
  executed : List (Call × JVal)
  execLog : List String
  counter : Nat

/-- The starter-kit `for (const call of toolCalls)` loop.  A call whose
name is not in the registry produces no events (only a console warning);
a found call gets a fresh id, its block of events, one execution
(`tool.execute(call.args || \x7b\x7d)`), and — only on success — an entry in
`executedTools`. -/
def runCalls {σ : Type} (tools : List (Tool σ)) :
    List Call → Nat → σ → LoopOut σ
  | [], n, s => ⟨[], s, [], [], n⟩
  | call :: rest, n, s =>
    match findTool tools call.name with
    | none => runCalls tools rest n s
    | some tool =>
      let r := tool.execute (some call.argsOrEmpty) s
      let out := runCalls tools rest (n + 1) r.2
      ⟨callBlock n call r.1 ++ out.events,
       out.state,
       (match r.1 with | .ok v => [(call, v)] | .error _ => []) ++ out.executed,
       call.name :: out.execLog,
       out.counter⟩

/-- `llm-client.js` `generateSimpleResponse`. -/
def llmSimpleResponse (toolCalls : List Call) : String :=
  if toolCalls.length == 0 then
    "I understand your request, but I don\x27t have the right tools to help with that at the moment."
  else
    "I\x27ve executed the following tools for you: " ++ joinComma (toolCalls.map Call.name) ++
      ". The results are displayed in your application above."

/-- `llm-client.js` `generateIntelligentResponse`: in real-LLM mode the
remote phrasing call's content, any failure of which is caught internally
and degrades to the simple response; otherwise the simple response.
Because every failure is handled here, the method never throws. -/
def llmIntelligentResponse (mode : LLMMode) (remote : Option String)
    (toolCalls : List Call) : String :=
  if mode.useRealLLM && mode.hasApiKey then
    remote.getD (llmSimpleResponse toolCalls)
  else llmSimpleResponse toolCalls

/-- `agent-client.js` `generateSimpleResponse` (one tool vs several). -/
def agentSimpleResponse (executedTools : List (Call × JVal)) : String :=
  if executedTools.length == 1 then
    "I\x27ve executed the " ++ (executedTools.headD (⟨"", none⟩, .null)).1.name ++
      " tool for you. The results are displayed in your application above."
  else
    "I\x27ve executed multiple tools for you: " ++
      joinComma (executedTools.map fun t => t.1.name) ++
      ". The results are displayed in your application above."

/-- `agent-client.js` `generateNoToolsResponse`. -/
def noToolsResponse (prompt : String) : String :=
  "I understand your request: \"" ++ prompt ++
    "\", but I don\x27t have the specific tools needed to help with that right now. Try asking me to show data, refresh information, analyze results, or generate reports."

/-- `agent-client.js` `streamResponse`: one `text-message-started`, the
content deltas (word-chunked in real-LLM mode, a single delta otherwise,
a fixed message when no tool ran), one `text-message-ended`.  Its
internal `catch` is unreachable because `llmIntelligentResponse` handles
its own failures. -/
def streamResponse (mode : LLMMode) (remote : Option String) (prompt : String)
    (executedTools : List (Call × JVal)) (mid : Nat) : List Event :=
  .textMessageStart mid "assistant" ::
    ((if executedTools.length > 0 then
        if mode.useRealLLM then
          (wordChunks (llmIntelligentResponse mode remote (executedTools.map Prod.fst))).map
            (Event.textMessageContent mid)
        else
          [.textMessageContent mid (agentSimpleResponse executedTools)]
      else
        [.textMessageContent mid (noToolsResponse prompt)]) ++
      [.textMessageEnd mid])

/-- Result of one starter-kit `processPrompt` invocation. -/
structure SKOut (σ : Type) where
  events : List Event
  state : σ
  isProcessing : Bool
  execLog : List String

/-- The starter-kit `processPrompt`.  Busy guard first; then
`run-started`; the resolver outcome; the tool loop; the streamed
response; `run-finished completed` — or, should an uncaught error escape
(the only such source being the resolver call), `run-error` plus
`run-finished error`.  The `finally` clears `isProcessing` on every
non-busy path. -/
def processPromptSK {σ : Type} (tools : List (Tool σ)) (mode : LLMMode)
    (resolve : Except String (List Call)) (remote : Option String)
    (isProcessing : Bool) (prompt : String) (s : σ) : SKOut σ :=
  if isProcessing then
    ⟨[.custom "Agent is already processing a request. Please wait."], s, isProcessing, []⟩
  else
    match resolve with
    | .error m =>
      ⟨[.runStarted 0 0, .runError (some (0, 0)) m "PROCESSING_ERROR",
        .runFinished 0 0 "error"], s, false, []⟩
    | .ok toolCalls =>
      let out := runCalls tools toolCalls 1 s
      ⟨.runStarted 0 0 ::
        (out.events ++ streamResponse mode remote prompt out.executed out.counter ++
          [.runFinished 0 0 "completed"]),
       out.state, false, out.execLog⟩

/-! ## Demo orchestrator (the `AgentClient` of `src/unnamed/part_003`)

Differences from the starter kit, all visible below: no busy guard; the
`tool-call-arguments` event is emitted whenever `call.args` is truthy
(even an empty object); no per-tool `try/catch`, so a throwing executable
aborts the loop and reaches the run-level `catch`; the `catch` yields a
raw `RUN_ERROR` object; the final `run-finished` always carries
`'completed'`; and in real-LLM mode `generateIntelligentResponse`
re-executes every resolved tool to gather response context. -/

/-- `if (call.args)`: truthiness, not non-emptiness. -/
def demoArgsEvents (tcId : Nat) (call : Call) : List Event :=
  match call.args with
  | some a => [.toolCallArgs tcId a]
  | none => []

/-- Demo event block of a found call whose executable returned. -/
def demoCallBlock (tcId : Nat) (call : Call) (v : JVal) : List Event :=
  .toolCallStart tcId call.name tcId ::
    (demoArgsEvents tcId call ++ [.toolCallEnd tcId, .toolCallResult tcId tcId v])

/-- Result of the demo tool loop; `thrown` is the message of the
executable error that escaped it, if any. -/
structure DemoLoopOut (σ : Type) where
  events : List Event
  state : σ
  execLog : List String
  counter : Nat
  thrown : Option String

/-- The demo `for (const call of toolCalls)` loop: no per-tool handler,
so an executable error ends the loop right after `tool-call-started`
(and the possible `tool-call-arguments`), with no `ended`/`result` for
the failing call and nothing at all for later calls. -/
def runCallsDemo {σ : Type} (tools : List (Tool σ)) :
    List Call → Nat → σ → DemoLoopOut σ
  | [], n, s => ⟨[], s, [], n, none⟩
  | call :: rest, n, s =>
    match findTool tools call.name with
    | none => runCallsDemo tools rest n s
    | some tool =>
      let r := tool.execute call.args s
      match r.1 with
      | .error m =>
        ⟨.toolCallStart n call.name n :: demoArgsEvents n call, r.2, [call.name], n + 1, some m⟩
      | .ok v =>
        let out := runCallsDemo tools rest (n + 1) r.2
        ⟨demoCallBlock n call v ++ out.events, out.state, call.name :: out.execLog,
         out.counter, out.thrown⟩

/-- Result of the demo `generateIntelligentResponse`. -/
structure DemoGenOut (σ : Type) where
  response : String
  state : σ
  execLog : List String

/-- The demo `generateIntelligentResponse`: it executes every resolved,
found tool a second time to gather `toolResults`, then asks the remote
model for phrasing.  All of its failures — a re-executed tool throwing, a
fetch failure, missing content (`||`) — collapse into the same fallback
sentence via its internal `try/catch`. -/
def generateIntelligentResponseDemo {σ : Type} (tools : List (Tool σ))
    (remote : Option String) : List Call → σ → DemoGenOut σ
  | [], s => ⟨remote.getD "I\x27ve completed your request successfully.", s, []⟩
  | call :: rest, s =>
    match findTool tools call.name with
    | none => generateIntelligentResponseDemo tools remote rest s
    | some tool =>
      let r := tool.execute call.args s
      match r.1 with
      | .error _ => ⟨"I\x27ve completed your request successfully.", r.2, [call.name]⟩
      | .ok _ =>
        let out := generateIntelligentResponseDemo tools remote rest r.2
        ⟨out.response, out.state, call.name :: out.execLog⟩

/-- Result of one demo `processPrompt` invocation. -/
structure DemoOut (σ : Type) where
  events : List Event
  state : σ
  execLog : List String

/-- Everything the demo `processPrompt` yields after the initial
`run-started`. -/
def processPromptDemoTail {σ : Type} (tools : List (Tool σ)) (useRealLLM : Bool)
    (resolve : Except String (List Call)) (remote : Option String)
    (s : σ) : DemoOut σ :=
  match resolve with
  | .error m =>
    ⟨[.runError none m "EXECUTION_ERROR", .runFinished 0 0 "completed"], s, []⟩
  | .ok toolCalls =>
    let out := runCallsDemo tools toolCalls 1 s
    match out.thrown with
    | some m =>
      ⟨out.events ++ [.runError none m "EXECUTION_ERROR", .runFinished 0 0 "completed"],
       out.state, out.execLog⟩
    | none =>
      if toolCalls.length > 0 then
        if useRealLLM then
          let gen := generateIntelligentResponseDemo tools remote toolCalls out.state
          ⟨out.events ++
            (.textMessageStart out.counter "assistant" ::
              ((wordChunks gen.response).map (Event.textMessageContent out.counter) ++
                [.textMessageEnd out.counter])) ++
            [.runFinished 0 0 "completed"],
           gen.state, out.execLog ++ gen.execLog⟩
        else
          ⟨out.events ++
            [.textMessageStart out.counter "assistant",
             .textMessageContent out.counter
               ("I\x27ve executed the following tools for you: " ++
                 joinComma (toolCalls.map Call.name) ++
                 ". The results are displayed in your portfolio above."),
             .textMessageEnd out.counter] ++
            [.runFinished 0 0 "completed"],
           out.state, out.execLog⟩
      else
        ⟨[.textMessageStart out.counter "assistant",
          .textMessageContent out.counter
            "I understand your request, but I don\x27t have the specific tools needed to help with that right now.",
          .textMessageEnd out.counter, .runFinished 0 0 "completed"],
         out.state, out.execLog⟩

/-- The demo `processPrompt`: `run-started` first, unconditionally (there
is no busy guard), then the tail. -/
def processPromptDemo {σ : Type} (tools : List (Tool σ)) (useRealLLM : Bool)
    (resolve : Except String (List Call)) (remote : Option String)
    (s : σ) : DemoOut σ :=
  let t := processPromptDemoTail tools useRealLLM resolve remote s
  ⟨.runStarted 0 0 :: t.events, t.state, t.execLog⟩

/-! ## Derived notions used by the claims -/

/-- The resolved calls that are actually found in the registry. -/
def foundCalls {σ : Type} (tools : List (Tool σ)) (calls : List Call) : List Call :=
  calls.filter fun c => (findTool tools c.name).isSome

/-- Their names, in order. -/
def foundNames {σ : Type} (tools : List (Tool σ)) (calls : List Call) : List String :=
  (foundCalls tools calls).map Call.name

/-- A run emits exactly one `run-started`, exactly one `run-finished`,
and ends on the `run-finished`. -/
def wellDelimitedRun (evs : List Event) : Prop :=
  evs.countP Event.isRunStarted = 1 ∧ evs.countP Event.isRunFinished = 1 ∧
    lastIsRunFinished evs = true

/-- Text-message events (the only thing `streamResponse` emits). -/
def Event.isTextMessage : Event → Bool
  | .textMessageStart _ _ => true
  | .textMessageContent _ _ => true
  | .textMessageEnd _ => true
  | _ => false

/-! ## Event classification lemmas -/

lemma tcid_some_classify {e : Event} {i : Nat} (h : e.tcid = some i) :
    e.isRunStarted = false ∧ e.isRunFinished = false ∧ e.isRunError = false ∧
      e.isCustom = false ∧ e.isTextMessage = false := by
  cases e <;> simp_all [Event.tcid, Event.isRunStarted, Event.isRunFinished,
    Event.isRunError, Event.isCustom, Event.isTextMessage]

lemma textMessage_classify {e : Event} (h : e.isTextMessage = true) :
    e.isRunStarted = false ∧ e.isRunFinished = false ∧ e.isRunError = false ∧
      e.isCustom = false ∧ e.tcid = none := by
  cases e <;> simp_all [Event.tcid, Event.isRunStarted, Event.isRunFinished,
    Event.isRunError, Event.isCustom, Event.isTextMessage]

/-! ## Starter-kit block lemmas -/

lemma skArgsEvents_tcid {i : Nat} {c : Call} {e : Event}
    (h : e ∈ skArgsEvents i c) : e = .toolCallArgs i c.argsOrEmpty ∧
      c.argsOrEmpty ≠ [] := by
  unfold skArgsEvents at h
  rcases hc : c.args with _ | a <;> rw [hc] at h
  · simp at h
  · by_cases ha : a.isEmpty <;> simp [ha] at h
    · subst h
      have : a ≠ [] := by
        intro hnil
        rw [hnil] at ha
        simp at ha
      simp [Call.argsOrEmpty, hc, this]

lemma callBlock_tcid {i : Nat} {c : Call} {r : Except String JVal} {e : Event}
    (h : e ∈ callBlock i c r) : e.tcid = some i := by
  rcases List.mem_cons.1 h with h | h
  · subst h
    rfl
  rcases List.mem_append.1 h with h | h
  · rw [(skArgsEvents_tcid h).1]
    rfl
  · unfold outcomeEvents at h
    cases r <;> simp at h <;> rcases h with h | h <;> subst h <;> rfl

lemma callBlock_countP_start (i : Nat) (c : Call) (r : Except String JVal) :
    (callBlock i c r).countP Event.isToolCallStart = 1 := by
  unfold callBlock skArgsEvents outcomeEvents
  rcases c.args with _ | a
  · cases r <;> rfl
  · by_cases ha : a.isEmpty <;> cases r <;> simp [ha, List.countP_cons,
      Event.isToolCallStart]

lemma callBlock_countP_end (i : Nat) (c : Call) (r : Except String JVal) :
    (callBlock i c r).countP Event.isToolCallEnd = 1 := by
  unfold callBlock skArgsEvents outcomeEvents
  rcases c.args with _ | a
  · cases r <;> rfl
  · by_cases ha : a.isEmpty <;> cases r <;> simp [ha, List.countP_cons,
      Event.isToolCallEnd]

lemma callBlock_countP_result (i : Nat) (c : Call) (r : Except String JVal) :
    (callBlock i c r).countP Event.isToolCallResult = 1 := by
  unfold callBlock skArgsEvents outcomeEvents
  rcases c.args with _ | a
  · cases r <;> rfl
  · by_cases ha : a.isEmpty <;> cases r <;> simp [ha, List.countP_cons,
      Event.isToolCallResult]

lemma countP_zero_of_all {p : Event → Bool} {l : List Event}
    (h : ∀ e ∈ l, p e = false) : l.countP p = 0 := by
  rw [List.countP_eq_zero]
  intro e he
  simp [h e he]

/-! ## Starter-kit loop lemmas -/

lemma runCalls_tcid_ge {σ : Type} (tools : List (Tool σ)) :
    ∀ (calls : List Call) (n : Nat) (s : σ) (e : Event),
      e ∈ (runCalls tools calls n s).events → ∃ i, e.tcid = some i ∧ n ≤ i := by
  intro calls
  induction calls with
  | nil =>
    intro n s e he
    simp [runCalls] at he
  | cons c rest ih =>
    intro n s e he
    rcases h : findTool tools c.name with _ | tool
    · simp only [runCalls, h] at he
      exact ih n s e he
    · simp only [runCalls, h] at he
      rcases List.mem_append.1 he with hb | hr
      · exact ⟨n, callBlock_tcid hb, le_refl n⟩
      · obtain ⟨i, hi, hni⟩ := ih (n + 1) _ e hr
        exact ⟨i, hi, Nat.le_of_succ_le hni⟩

lemma runCalls_execLog {σ : Type} (tools : List (Tool σ)) :
    ∀ (calls : List Call) (n : Nat) (s : σ),
      (runCalls tools calls n s).execLog = foundNames tools calls := by
  intro calls
  induction calls with
  | nil =>
    intro n s
    simp [runCalls, foundNames, foundCalls]
  | cons c rest ih =>
    intro n s
    rcases h : findTool tools c.name with _ | tool <;>
      simp [runCalls, h, foundNames, foundCalls, List.filter_cons, ih]

lemma runCalls_countP_start {σ : Type} (tools : List (Tool σ)) :
    ∀ (calls : List Call) (n : Nat) (s : σ),
      (runCalls tools calls n s).events.countP Event.isToolCallStart =
        (foundNames tools calls).length := by
  intro calls
  induction calls with
  | nil =>
    intro n s
    simp [runCalls, foundNames, foundCalls]
  | cons c rest ih =>
    intro n s
    rcases h : findTool tools c.name with _ | tool
    · simp [runCalls, h, foundNames, foundCalls, List.filter_cons, ih]
    · simp [runCalls, h, foundNames, foundCalls, List.filter_cons,
        List.countP_append, callBlock_countP_start, ih]
      omega

lemma runCalls_countP_end {σ : Type} (tools : List (Tool σ)) :
    ∀ (calls : List Call) (n : Nat) (s : σ),
      (runCalls tools calls n s).events.countP Event.isToolCallEnd =
        (foundNames tools calls).length := by
  intro calls
  induction calls with
  | nil =>
    intro n s
    simp [runCalls, foundNames, foundCalls]
  | cons c rest ih =>
    intro n s
    rcases h : findTool tools c.name with _ | tool
    · simp [runCalls, h, foundNames, foundCalls, List.filter_cons, ih]
    · simp [runCalls, h, foundNames, foundCalls, List.filter_cons,
        List.countP_append, callBlock_countP_end, ih]
      omega

lemma runCalls_countP_result {σ : Type} (tools : List (Tool σ)) :
    ∀ (calls : List Call) (n : Nat) (s : σ),
      (runCalls tools calls n s).events.countP Event.isToolCallResult =
        (foundNames tools calls).length := by
  intro calls
  induction calls with
  | nil =>
    intro n s
    simp [runCalls, foundNames, foundCalls]
  | cons c rest ih =>
    intro n s
    rcases h : findTool tools c.name with _ | tool
    · simp [runCalls, h, foundNames, foundCalls, List.filter_cons, ih]
    · simp [runCalls, h, foundNames, foundCalls, List.filter_cons,
        List.countP_append, callBlock_countP_result, ih]
      omega

lemma runCalls_countP_runStarted {σ : Type} (tools : List (Tool σ))
    (calls : List Call) (n : Nat) (s : σ) :
    (runCalls tools calls n s).events.countP Event.isRunStarted = 0 := by
  refine countP_zero_of_all fun e he => ?_
  obtain ⟨i, hi, _⟩ := runCalls_tcid_ge tools calls n s e he
  exact (tcid_some_classify hi).1

lemma runCalls_countP_runFinished {σ : Type} (tools : List (Tool σ))
    (calls : List Call) (n : Nat) (s : σ) :
    (runCalls tools calls n s).events.countP Event.isRunFinished = 0 := by
  refine countP_zero_of_all fun e he => ?_
  obtain ⟨i, hi, _⟩ := runCalls_tcid_ge tools calls n s e he
  exact (tcid_some_classify hi).2.1

/-- The per-tool-call-id view of the starter-kit loop: the events
carrying a given id are either absent or exactly one complete block of
one resolved call. -/
lemma runCalls_filter_tcid {σ : Type} (tools : List (Tool σ)) :
    ∀ (calls : List Call) (n : Nat) (s : σ) (i : Nat),
      (runCalls tools calls n s).events.filter (fun e => e.tcid == some i) = [] ∨
        ∃ c r, c ∈ calls ∧
          (runCalls tools calls n s).events.filter (fun e => e.tcid == some i) =
            callBlock i c r := by
  intro calls
  induction calls with
  | nil =>
    intro n s i
    left
    simp [runCalls]
  | cons c rest ih =>
    intro n s i
    rcases h : findTool tools c.name with _ | tool
    · rcases ih n s i with he | ⟨c1, r1, hc1, he⟩
      · left
        simpa only [runCalls, h] using he
      · right
        refine ⟨c1, r1, List.mem_cons_of_mem _ hc1, ?_⟩
        simpa only [runCalls, h] using he
    · have hblock : ∀ e ∈ callBlock n c (tool.execute (some c.argsOrEmpty) s).1,
          e.tcid = some n := fun e he => callBlock_tcid he
      have hrest : ∀ e ∈ (runCalls tools rest (n + 1)
          (tool.execute (some c.argsOrEmpty) s).2).events, ∃ j, e.tcid = some j ∧ n + 1 ≤ j :=
        fun e he => runCalls_tcid_ge tools rest (n + 1) _ e he
      by_cases hin : i = n
      · subst hin
        right
        refine ⟨c, (tool.execute (some c.argsOrEmpty) s).1, List.mem_cons_self c rest, ?_⟩
        simp only [runCalls, h, List.filter_append]
        have h1 : (callBlock i c (tool.execute (some c.argsOrEmpty) s).1).filter
            (fun e => e.tcid == some i) =
            callBlock i c (tool.execute (some c.argsOrEmpty) s).1 := by
          rw [List.filter_eq_self]
          intro e he
          simp [hblock e he]
        have h2 : (runCalls tools rest (i + 1)
            (tool.execute (some c.argsOrEmpty) s).2).events.filter
            (fun e => e.tcid == some i) = [] := by
          rw [List.filter_eq_nil_iff]
          intro e he
          obtain ⟨j, hj, hij⟩ := hrest e he
          simp [hj]
          omega
        rw [h1, h2, List.append_nil]
      · have h1 : (callBlock n c (tool.execute (some c.argsOrEmpty) s).1).filter
            (fun e => e.tcid == some i) = [] := by
          rw [List.filter_eq_nil_iff]
          intro e he
          simp [hblock e he]
          omega
        rcases ih (n + 1) (tool.execute (some c.argsOrEmpty) s).2 i with he | ⟨c1, r1, hc1, he⟩
        · left
          simp only [runCalls, h, List.filter_append, h1, he, List.nil_append]
        · right
          refine ⟨c1, r1, List.mem_cons_of_mem _ hc1, ?_⟩
          simp only [runCalls, h, List.filter_append, h1, he, List.nil_append]

/-! ## Response-stream lemmas -/

lemma streamResponse_isText (mode : LLMMode) (remote : Option String)
    (prompt : String) (executedTools : List (Call × JVal)) (mid : Nat) :
    ∀ e ∈ streamResponse mode remote prompt executedTools mid, e.isTextMessage = true := by
  intro e he
  unfold streamResponse at he
  rcases List.mem_cons.1 he with h | h
  · subst h
    rfl
  rcases List.mem_append.1 h with h | h
  · split at h
    · split at h
      · obtain ⟨w, _, hw⟩ := List.mem_map.1 h
        subst hw
        rfl
      · simp at h
        subst h
        rfl
    · simp at h
      subst h
      rfl
  · simp at h
    subst h
    rfl

lemma streamResponse_countP_runStarted (mode : LLMMode)
    (remote : Option String) (prompt : String) (executedTools : List (Call × JVal))
    (mid : Nat) :
    (streamResponse mode remote prompt executedTools mid).countP Event.isRunStarted = 0 :=
  countP_zero_of_all fun e he =>
    (textMessage_classify (streamResponse_isText mode remote prompt
      executedTools mid e he)).1

lemma streamResponse_countP_runFinished (mode : LLMMode)
    (remote : Option String) (prompt : String) (executedTools : List (Call × JVal))
    (mid : Nat) :
    (streamResponse mode remote prompt executedTools mid).countP Event.isRunFinished = 0 :=
  countP_zero_of_all fun e he =>
    (textMessage_classify (streamResponse_isText mode remote prompt
      executedTools mid e he)).2.1

lemma streamResponse_filter_tcid (mode : LLMMode) (remote : Option String)
    (prompt : String) (executedTools : List (Call × JVal)) (mid : Nat) (i : Nat) :
    (streamResponse mode remote prompt executedTools mid).filter
      (fun e => e.tcid == some i) = [] := by
  rw [List.filter_eq_nil_iff]
  intro e he
  have := (textMessage_classify (streamResponse_isText mode remote prompt
    executedTools mid e he)).2.2.2.2
  simp [this]

/-! ## Demo loop lemmas -/

lemma demoArgsEvents_tcid {i : Nat} {c : Call} {e : Event}
    (h : e ∈ demoArgsEvents i c) : ∃ a, c.args = some a ∧ e = .toolCallArgs i a := by
  unfold demoArgsEvents at h
  rcases hc : c.args with _ | a <;> rw [hc] at h <;> simp at h
  exact ⟨a, rfl, h⟩

lemma demoCallBlock_tcid {i : Nat} {c : Call} {v : JVal} {e : Event}
    (h : e ∈ demoCallBlock i c v) : e.tcid = some i := by
  rcases List.mem_cons.1 h with h | h
  · subst h
    rfl
  rcases List.mem_append.1 h with h | h
  · obtain ⟨a, _, ha⟩ := demoArgsEvents_tcid h
    rw [ha]
    rfl
  · simp at h
    rcases h with h | h <;> subst h <;> rfl

lemma demoAborted_tcid {i : Nat} {c : Call} {e : Event}
    (h : e ∈ Event.toolCallStart i c.name i :: demoArgsEvents i c) : e.tcid = some i := by
  rcases List.mem_cons.1 h with h | h
  · subst h
    rfl
  · obtain ⟨a, _, ha⟩ := demoArgsEvents_tcid h
    rw [ha]
    rfl

lemma demoArgsEvents_counts (i : Nat) (c : Call) :
    (demoArgsEvents i c).countP Event.isToolCallStart = 0 ∧
      (demoArgsEvents i c).countP Event.isToolCallEnd = 0 := by
  unfold demoArgsEvents
  rcases c.args with _ | a <;> simp [List.countP_cons, Event.isToolCallStart,
    Event.isToolCallEnd]

lemma demoCallBlock_countP_start (i : Nat) (c : Call) (v : JVal) :
    (demoCallBlock i c v).countP Event.isToolCallStart = 1 := by
  unfold demoCallBlock
  simp [List.countP_cons, List.countP_append, (demoArgsEvents_counts i c).1,
    Event.isToolCallStart]

lemma demoCallBlock_countP_end (i : Nat) (c : Call) (v : JVal) :
    (demoCallBlock i c v).countP Event.isToolCallEnd = 1 := by
  unfold demoCallBlock
  simp [List.countP_cons, List.countP_append, (demoArgsEvents_counts i c).2,
    Event.isToolCallEnd]

lemma runCallsDemo_tcid_ge {σ : Type} (tools : List (Tool σ)) :
    ∀ (calls : List Call) (n : Nat) (s : σ) (e : Event),
      e ∈ (runCallsDemo tools calls n s).events → ∃ i, e.tcid = some i ∧ n ≤ i := by
  intro calls
  induction calls with
  | nil =>
    intro n s e he
    simp [runCallsDemo] at he
  | cons c rest ih =>
    intro n s e he
    rcases h : findTool tools c.name with _ | tool
    · simp only [runCallsDemo, h] at he
      exact ih n s e he
    · rcases hx : tool.execute c.args s with ⟨res, s2⟩
      rcases res with m | v <;> simp only [runCallsDemo, h, hx] at he
      · exact ⟨n, demoAborted_tcid he, le_refl n⟩
      · rcases List.mem_append.1 he with hb | hrec
        · exact ⟨n, demoCallBlock_tcid hb, le_refl n⟩
        · obtain ⟨i, hi, hni⟩ := ih (n + 1) _ e hrec
          exact ⟨i, hi, Nat.le_of_succ_le hni⟩

lemma runCallsDemo_countP_runStarted {σ : Type} (tools : List (Tool σ))
    (calls : List Call) (n : Nat) (s : σ) :
    (runCallsDemo tools calls n s).events.countP Event.isRunStarted = 0 := by
  refine countP_zero_of_all fun e he => ?_
  obtain ⟨i, hi, _⟩ := runCallsDemo_tcid_ge tools calls n s e he
  exact (tcid_some_classify hi).1

lemma runCallsDemo_countP_runFinished {σ : Type} (tools : List (Tool σ))
    (calls : List Call) (n : Nat) (s : σ) :
    (runCallsDemo tools calls n s).events.countP Event.isRunFinished = 0 := by
  refine countP_zero_of_all fun e he => ?_
  obtain ⟨i, hi, _⟩ := runCallsDemo_tcid_ge tools calls n s e he
  exact (tcid_some_classify hi).2.1

/-- When the demo loop completes without a throw, every started call was
also ended, and the execution log is exactly the found calls in order. -/
lemma runCallsDemo_completes {σ : Type} (tools : List (Tool σ)) :
    ∀ (calls : List Call) (n : Nat) (s : σ),
      (runCallsDemo tools calls n s).thrown = none →
        (runCallsDemo tools calls n s).events.countP Event.isToolCallEnd =
            (runCallsDemo tools calls n s).events.countP Event.isToolCallStart ∧
          (runCallsDemo tools calls n s).execLog = foundNames tools calls := by
  intro calls
  induction calls with
  | nil =>
    intro n s _
    simp [runCallsDemo, foundNames, foundCalls]
  | cons c rest ih =>
    intro n s hthr
    rcases h : findTool tools c.name with _ | tool
    · simp only [runCallsDemo, h] at hthr ⊢
      have := ih n s hthr
      simp [this.1, this.2, foundNames, foundCalls, List.filter_cons, h]
    · rcases hx : tool.execute c.args s with ⟨res, s2⟩
      rcases res with m | v <;> simp only [runCallsDemo, h, hx] at hthr ⊢
      · simp at hthr
      · have := ih (n + 1) s2 hthr
        simp [List.countP_append, demoCallBlock_countP_start, demoCallBlock_countP_end,
          this.1, this.2, foundNames, foundCalls, List.filter_cons, h]

/-- When the demo loop throws, strictly more calls were started than
ended: the failing call never gets its `tool-call-ended`. -/
lemma runCallsDemo_aborts {σ : Type} (tools : List (Tool σ)) :
    ∀ (calls : List Call) (n : Nat) (s : σ) (m : String),
      (runCallsDemo tools calls n s).thrown = some m →
        (runCallsDemo tools calls n s).events.countP Event.isToolCallStart =
          (runCallsDemo tools calls n s).events.countP Event.isToolCallEnd + 1 := by
  intro calls
  induction calls with
  | nil =>
    intro n s m hthr
    simp [runCallsDemo] at hthr
  | cons c rest ih =>
    intro n s m hthr
    rcases h : findTool tools c.name with _ | tool
    · simp only [runCallsDemo, h] at hthr ⊢
      exact ih n s m hthr
    · rcases hx : tool.execute c.args s with ⟨res, s2⟩
      rcases res with m1 | v <;> simp only [runCallsDemo, h, hx] at hthr ⊢
      · simp [List.countP_cons, (demoArgsEvents_counts n c).1,
          (demoArgsEvents_counts n c).2, Event.isToolCallStart, Event.isToolCallEnd]
      · have := ih (n + 1) s2 m hthr
        simp [List.countP_append, demoCallBlock_countP_start, demoCallBlock_countP_end,
          this]
        omega

/-- The per-tool-call-id view of the demo loop: the events carrying a
given id are absent, a complete block, or the truncated prefix of the
call on which the loop aborted. -/
lemma runCallsDemo_filter_tcid {σ : Type} (tools : List (Tool σ)) :
    ∀ (calls : List Call) (n : Nat) (s : σ) (i : Nat),
      (runCallsDemo tools calls n s).events.filter (fun e => e.tcid == some i) = [] ∨
        ∃ c, c ∈ calls ∧
          ((∃ v, (runCallsDemo tools calls n s).events.filter
              (fun e => e.tcid == some i) = demoCallBlock i c v) ∨
            (runCallsDemo tools calls n s).events.filter (fun e => e.tcid == some i) =
              Event.toolCallStart i c.name i :: demoArgsEvents i c) := by
  intro calls
  induction calls with
  | nil =>
    intro n s i
    left
    simp [runCallsDemo]
  | cons c rest ih =>
    intro n s i
    rcases h : findTool tools c.name with _ | tool
    · rcases ih n s i with he | ⟨c1, hc1, hrest⟩
      · left
        simpa only [runCallsDemo, h] using he
      · right
        refine ⟨c1, List.mem_cons_of_mem _ hc1, ?_⟩
        simpa only [runCallsDemo, h] using hrest
    · rcases hx : tool.execute c.args s with ⟨res, s2⟩
      rcases res with m | v
      · by_cases hin : i = n
        · subst hin
          right
          refine ⟨c, List.mem_cons_self c rest, Or.inr ?_⟩
          simp only [runCallsDemo, h, hx]
          rw [List.filter_eq_self]
          intro e he
          simp [demoAborted_tcid he]
        · left
          simp only [runCallsDemo, h, hx]
          rw [List.filter_eq_nil_iff]
          intro e he
          have := demoAborted_tcid he
          simp [this]
          omega
      · by_cases hin : i = n
        · subst hin
          right
          refine ⟨c, List.mem_cons_self c rest, Or.inl ⟨v, ?_⟩⟩
          simp only [runCallsDemo, h, hx, List.filter_append]
          have h1 : (demoCallBlock i c v).filter (fun e => e.tcid == some i) =
              demoCallBlock i c v := by
            rw [List.filter_eq_self]
            intro e he
            simp [demoCallBlock_tcid he]
          have h2 : (runCallsDemo tools rest (i + 1) s2).events.filter
              (fun e => e.tcid == some i) = [] := by
            rw [List.filter_eq_nil_iff]
            intro e he
            obtain ⟨j, hj, hij⟩ := runCallsDemo_tcid_ge tools rest (i + 1) _ e he
            simp [hj]
            omega
          rw [h1, h2, List.append_nil]
        · have h1 : (demoCallBlock n c v).filter (fun e => e.tcid == some i) = [] := by
            rw [List.filter_eq_nil_iff]
            intro e he
            simp [demoCallBlock_tcid he]
            omega
          rcases ih (n + 1) s2 i with he | ⟨c1, hc1, hrest⟩
          · left
            simp only [runCallsDemo, h, hx, List.filter_append, h1, he, List.nil_append]
          · right
            refine ⟨c1, List.mem_cons_of_mem _ hc1, ?_⟩
            rcases hrest with ⟨v1, hv1⟩ | hv1
            · exact Or.inl ⟨v1, by
                simp only [runCallsDemo, h, hx, List.filter_append, h1, hv1,
                  List.nil_append]⟩
            · exact Or.inr (by
                simp only [runCallsDemo, h, hx, List.filter_append, h1, hv1,
                  List.nil_append])

/-! ## Whole-run assembly lemmas -/

lemma getLast?_concat_one (l : List Event) (x : Event) : (l ++ [x]).getLast? = some x :=
  List.getLast?_concat l

lemma getLast?_concat_two (l : List Event) (x y : Event) :
    (l ++ [x, y]).getLast? = some y := by
  have h : l ++ [x, y] = (l ++ [x]) ++ [y] := by simp
  rw [h, List.getLast?_concat]

lemma mem_contentMap_isText {mid : Nat} {ws : List String} {e : Event}
    (h : e ∈ ws.map (Event.textMessageContent mid)) : e.isTextMessage = true := by
  obtain ⟨w, _, hw⟩ := List.mem_map.1 h
  subst hw
  rfl

/-- The starter-kit run is well delimited on every non-busy path. -/
lemma processPromptSK_wellDelimited {σ : Type} (tools : List (Tool σ)) (mode : LLMMode)
    (resolve : Except String (List Call)) (remote : Option String) (prompt : String)
    (s : σ) :
    wellDelimitedRun (processPromptSK tools mode resolve remote false prompt s).events := by
  rcases resolve with m | toolCalls
  · refine ⟨rfl, rfl, rfl⟩
  · unfold processPromptSK wellDelimitedRun
    simp only [if_neg (by simp : ¬(false = true))]
    refine ⟨?_, ?_, ?_⟩
    · simp [List.countP_cons, List.countP_append, runCalls_countP_runStarted,
        streamResponse_countP_runStarted, Event.isRunStarted]
    · simp [List.countP_cons, List.countP_append, runCalls_countP_runFinished,
        streamResponse_countP_runFinished, Event.isRunFinished]
    · unfold lastIsRunFinished
      rw [← List.cons_append, ← List.cons_append, getLast?_concat_one]
      rfl

/-- The demo tail always contains no `run-started`, exactly one
`run-finished`, and ends on `run-finished \x27completed\x27`. -/
lemma processPromptDemoTail_shape {σ : Type} (tools : List (Tool σ)) (useRealLLM : Bool)
    (resolve : Except String (List Call)) (remote : Option String) (s : σ) :
    (processPromptDemoTail tools useRealLLM resolve remote s).events.countP
        Event.isRunStarted = 0 ∧
      (processPromptDemoTail tools useRealLLM resolve remote s).events.countP
        Event.isRunFinished = 1 ∧
      (processPromptDemoTail tools useRealLLM resolve remote s).events.getLast? =
        some (.runFinished 0 0 "completed") := by
  rcases resolve with m | toolCalls
  · exact ⟨rfl, rfl, rfl⟩
  · unfold processPromptDemoTail
    rcases hthr : (runCallsDemo tools toolCalls 1 s).thrown with _ | m
    · simp only [hthr]
      by_cases hlen : toolCalls.length > 0
      · simp only [if_pos hlen]
        by_cases hllm : useRealLLM = true
        · simp only [if_pos hllm]
          have hmap : ∀ e ∈ (wordChunks (generateIntelligentResponseDemo tools remote
              toolCalls (runCallsDemo tools toolCalls 1 s).state).response).map
              (Event.textMessageContent (runCallsDemo tools toolCalls 1 s).counter),
              e.isTextMessage = true := fun e he => mem_contentMap_isText he
          refine ⟨?_, ?_, ?_⟩
          · simp [List.countP_append, List.countP_cons,
              runCallsDemo_countP_runStarted, Event.isRunStarted,
              countP_zero_of_all fun e he => (textMessage_classify (hmap e he)).1]
          · simp [List.countP_append, List.countP_cons,
              runCallsDemo_countP_runFinished, Event.isRunFinished,
              countP_zero_of_all fun e he => (textMessage_classify (hmap e he)).2.1]
          · rw [getLast?_concat_one]
        · simp only [if_neg hllm]
          refine ⟨?_, ?_, ?_⟩
          · simp [List.countP_append, List.countP_cons,
              runCallsDemo_countP_runStarted, Event.isRunStarted]
          · simp [List.countP_append, List.countP_cons,
              runCallsDemo_countP_runFinished, Event.isRunFinished]
          · rw [getLast?_concat_one]
      · simp only [if_neg hlen]
        exact ⟨rfl, rfl, rfl⟩
    · simp only [hthr]
      refine ⟨?_, ?_, ?_⟩
      · simp [List.countP_append, List.countP_cons,
          runCallsDemo_countP_runStarted, Event.isRunStarted, Event.isRunError]
      · simp [List.countP_append, List.countP_cons,
          runCallsDemo_countP_runFinished, Event.isRunFinished, Event.isRunError]
      · rw [getLast?_concat_two]

/-- The demo run is well delimited on every path. -/
lemma processPromptDemo_wellDelimited {σ : Type} (tools : List (Tool σ))
    (useRealLLM : Bool) (resolve : Except String (List Call)) (remote : Option String)
    (s : σ) :
    wellDelimitedRun (processPromptDemo tools useRealLLM resolve remote s).events := by
  obtain ⟨h0, h1, h2⟩ := processPromptDemoTail_shape tools useRealLLM resolve remote s
  have hne : (processPromptDemoTail tools useRealLLM resolve remote s).events ≠ [] := by
    intro hnil
    rw [hnil] at h2
    simp at h2
  refine ⟨?_, ?_, ?_⟩
  · simp [processPromptDemo, List.countP_cons, h0, Event.isRunStarted]
  · simp [processPromptDemo, List.countP_cons, h1, Event.isRunFinished]
  · unfold processPromptDemo lastIsRunFinished
    rcases hev : (processPromptDemoTail tools useRealLLM resolve remote s).events with _ | ⟨x, xs⟩
    · exact absurd hev hne
    · rw [hev] at h2
      simp only [hev, List.getLast?_cons_cons, h2]
      rfl

/-- Filtering a starter-kit run by a tool-call id sees only the loop:
the surrounding lifecycle and text-message events carry no such id. -/
lemma processPromptSK_filter_tcid {σ : Type} (tools : List (Tool σ)) (mode : LLMMode)
    (calls : List Call) (remote : Option String) (prompt : String) (s : σ) (i : Nat) :
    (processPromptSK tools mode (.ok calls) remote false prompt s).events.filter
        (fun e => e.tcid == some i) =
      (runCalls tools calls 1 s).events.filter (fun e => e.tcid == some i) := by
  unfold processPromptSK
  simp only [if_neg (by simp : ¬(false = true))]
  have hstream := streamResponse_filter_tcid mode remote prompt
    (runCalls tools calls 1 s).executed (runCalls tools calls 1 s).counter i
  rw [List.filter_cons_of_neg, List.filter_append, List.filter_append, hstream,
    List.append_nil]
  · rw [show (List.filter (fun e => e.tcid == some i)
        [Event.runFinished 0 0 "completed"]) = [] from rfl, List.append_nil]
  · simp [Event.tcid]

/-- Filtering a demo run by a tool-call id sees only the loop. -/
lemma processPromptDemo_filter_tcid {σ : Type} (tools : List (Tool σ))
    (useRealLLM : Bool) (calls : List Call) (remote : Option String) (s : σ) (i : Nat) :
    (processPromptDemo tools useRealLLM (.ok calls) remote s).events.filter
        (fun e => e.tcid == some i) =
      (runCallsDemo tools calls 1 s).events.filter (fun e => e.tcid == some i) := by
  unfold processPromptDemo processPromptDemoTail
  rcases hthr : (runCallsDemo tools calls 1 s).thrown with _ | m
  · simp only [hthr]
    by_cases hlen : calls.length > 0
    · simp only [if_pos hlen]
      by_cases hllm : useRealLLM = true
      · simp only [if_pos hllm]
        have hmap : ((wordChunks (generateIntelligentResponseDemo tools remote
            calls (runCallsDemo tools calls 1 s).state).response).map
            (Event.textMessageContent (runCallsDemo tools calls 1 s).counter)).filter
            (fun e => e.tcid == some i) = [] := by
          rw [List.filter_eq_nil_iff]
          intro e he
          have := (textMessage_classify (mem_contentMap_isText he)).2.2.2.2
          simp [this]
        simp [List.filter_cons, List.filter_append, hmap, Event.tcid]
      · simp only [if_neg hllm]
        simp [List.filter_cons, List.filter_append, Event.tcid]
    · simp only [if_neg hlen]
      have hnil : calls = [] := by
        rcases calls with _ | ⟨c, cs⟩
        · rfl
        · simp at hlen
      subst hnil
      simp [runCallsDemo, List.filter_cons, Event.tcid]
  · simp only [hthr]
    simp [List.filter_cons, List.filter_append, Event.tcid]

/-! ## The claims -/

/-- C1: for every prompt, a (non-busy) invocation of `processPrompt` —
starter-kit or demo — emits exactly one `run-started` and exactly one
`run-finished`, and the `run-finished` is the last emitted event, on the
successful path and on the error path alike (the resolver outcome
`resolve` ranges over both).  A busy-rejected starter-kit call is not a
run: it emits no `run-started` at all (see the single-run claim). -/
theorem claim_C1 {σ : Type} (tools : List (Tool σ)) (mode : LLMMode) (useRealLLM : Bool)
    (resolve : Except String (List Call)) (remote : Option String) (prompt : String)
    (s : σ) :
    wellDelimitedRun (processPromptSK tools mode resolve remote false prompt s).events ∧
      wellDelimitedRun (processPromptDemo tools useRealLLM resolve remote s).events :=
  ⟨processPromptSK_wellDelimited tools mode resolve remote prompt s,
   processPromptDemo_wellDelimited tools useRealLLM resolve remote s⟩

/-- C2 counterexample: in the demo orchestrator, a run in which the
resolver throws emits the `run-error` event (message plus code
`EXECUTION_ERROR`) but then finishes with terminal status `completed`,
not `error`, contradicting the claim at this concrete input. -/
theorem claim_C2_cex :
    (processPromptDemo fidelityTools false (.error "Simulated resolver failure") none
        initialFidelityState).events =
      [.runStarted 0 0,
       .runError none "Simulated resolver failure" "EXECUTION_ERROR",
       .runFinished 0 0 "completed"] ∧
      "completed" ≠ "error" :=
  ⟨rfl, by decide⟩

/-- C2 amended: on an uncaught error (the resolver throwing), the
starter-kit orchestrator emits `run-error` carrying the message and the
code `PROCESSING_ERROR` and then `run-finished` with status `error`,
mutating nothing; the demo orchestrator emits `run-error` with code
`EXECUTION_ERROR` but then emits `run-finished` with status `completed`
even on the error path. -/
theorem claim_C2 {σ : Type} (tools : List (Tool σ)) (mode : LLMMode) (useRealLLM : Bool)
    (remote : Option String) (prompt : String) (s : σ) (m : String) :
    processPromptSK tools mode (.error m) remote false prompt s =
        ⟨[.runStarted 0 0, .runError (some (0, 0)) m "PROCESSING_ERROR",
          .runFinished 0 0 "error"], s, false, []⟩ ∧
      processPromptDemo tools useRealLLM (.error m) remote s =
        ⟨[.runStarted 0 0, .runError none m "EXECUTION_ERROR",
          .runFinished 0 0 "completed"], s, []⟩ :=
  ⟨rfl, rfl⟩

/-- C3 counterexample: under the demo pipeline the prompt
`what is my retirement plan` resolves to one request whose argument
object is empty, yet the run emits a `tool-call-arguments` event for it
(the demo orchestrator tests only truthiness of `call.args`), refuting
`emitted if and only if the argument object is non-empty`. -/
theorem claim_C3_cex :
    demoKeywords "what is my retirement plan" =
        [⟨"getRetirementProjection", some []⟩] ∧
      ((processPromptDemo fidelityTools false
          (.ok (demoKeywords "what is my retirement plan")) none
          initialFidelityState).events).countP Event.isEmptyArgsEvent = 1 :=
  ⟨rfl, rfl⟩

/-- C3 amended: for every resolved tool-call request, the events carrying
its tool-call id form, in the starter-kit orchestrator, exactly the
subsequence `started, [arguments]?, ended, result` with the arguments
event present iff the argument object is present and non-empty
(`callBlock`/`skArgsEvents`); in the demo orchestrator the arguments
event is present iff an argument object is present at all (even empty),
and a throwing executable truncates the subsequence after
`started, [arguments]?` (`demoArgsEvents`, the aborted shape). -/
theorem claim_C3 {σ : Type} (tools : List (Tool σ)) (mode : LLMMode) (useRealLLM : Bool)
    (calls : List Call) (remote : Option String) (prompt : String) (s : σ) (i : Nat) :
    ((processPromptSK tools mode (.ok calls) remote false prompt s).events.filter
          (fun e => e.tcid == some i) = [] ∨
        ∃ c r, c ∈ calls ∧
          (processPromptSK tools mode (.ok calls) remote false prompt s).events.filter
            (fun e => e.tcid == some i) = callBlock i c r) ∧
      ((processPromptDemo tools useRealLLM (.ok calls) remote s).events.filter
          (fun e => e.tcid == some i) = [] ∨
        ∃ c, c ∈ calls ∧
          ((∃ v, (processPromptDemo tools useRealLLM (.ok calls) remote s).events.filter
              (fun e => e.tcid == some i) = demoCallBlock i c v) ∨
            (processPromptDemo tools useRealLLM (.ok calls) remote s).events.filter
              (fun e => e.tcid == some i) =
              Event.toolCallStart i c.name i :: demoArgsEvents i c)) := by
  constructor
  · rw [processPromptSK_filter_tcid]
    exact runCalls_filter_tcid tools calls 1 s i
  · rw [processPromptDemo_filter_tcid]
    exact runCallsDemo_filter_tcid tools calls 1 s i

/-- C6 counterexample: the demo orchestrator has no busy guard at all —
`processPrompt` always starts a full run.  At this concrete input the
emitted sequence contains a `run-started` and no informational (custom)
event, refuting `yields exactly one informational (busy) event and
nothing else ... and emits no run-started`. -/
theorem claim_C6_cex :
    ((processPromptDemo fidelityTools false (.ok []) none
          initialFidelityState).events).countP Event.isRunStarted = 1 ∧
      ((processPromptDemo fidelityTools false (.ok []) none
          initialFidelityState).events).countP Event.isCustom = 0 :=
  ⟨rfl, rfl⟩

/-- C6 amended: the starter-kit orchestrator enforces the single-run
invariant — a `processPrompt` call while `isProcessing` holds yields
exactly the one busy `custom` event, leaves the state untouched, logs no
execution and emits no `run-started` or `run-finished`.  The demo
orchestrator keeps no busy flag: any call, including one made while
another run is draining, begins a full run with `run-started` as its
first event. -/
theorem claim_C6 {σ : Type} (tools : List (Tool σ)) (mode : LLMMode) (useRealLLM : Bool)
    (resolve : Except String (List Call)) (remote : Option String) (prompt : String)
    (s : σ) :
    processPromptSK tools mode resolve remote true prompt s =
        ⟨[.custom "Agent is already processing a request. Please wait."], s, true, []⟩ ∧
      (processPromptDemo tools useRealLLM resolve remote s).events.head? =
        some (.runStarted 0 0) :=
  ⟨rfl, rfl⟩

lemma textMessage_classify_tool {e : Event} (h : e.isTextMessage = true) :
    e.isToolCallStart = false ∧ e.isToolCallEnd = false ∧ e.isToolCallResult = false := by
  cases e <;> simp_all [Event.isTextMessage, Event.isToolCallStart, Event.isToolCallEnd,
    Event.isToolCallResult]

lemma streamResponse_countP_toolStart (mode : LLMMode) (remote : Option String)
    (prompt : String) (executedTools : List (Call × JVal)) (mid : Nat) :
    (streamResponse mode remote prompt executedTools mid).countP Event.isToolCallStart = 0 :=
  countP_zero_of_all fun e he =>
    (textMessage_classify_tool (streamResponse_isText mode remote prompt
      executedTools mid e he)).1

lemma streamResponse_countP_toolEnd (mode : LLMMode) (remote : Option String)
    (prompt : String) (executedTools : List (Call × JVal)) (mid : Nat) :
    (streamResponse mode remote prompt executedTools mid).countP Event.isToolCallEnd = 0 :=
  countP_zero_of_all fun e he =>
    (textMessage_classify_tool (streamResponse_isText mode remote prompt
      executedTools mid e he)).2.1

lemma streamResponse_countP_toolResult (mode : LLMMode) (remote : Option String)
    (prompt : String) (executedTools : List (Call × JVal)) (mid : Nat) :
    (streamResponse mode remote prompt executedTools mid).countP Event.isToolCallResult = 0 :=
  countP_zero_of_all fun e he =>
    (textMessage_classify_tool (streamResponse_isText mode remote prompt
      executedTools mid e he)).2.2

/-- C4 counterexample: in the demo orchestrator, a run resolving to a
throwing tool (`rebalancePortfolio` invoked on an absent argument
object) followed by `getPortfolio` emits `tool-call-started` for the
failing call but no `tool-call-ended` and no `tool-call-result` at all,
and never executes the remaining resolved call — refuting the claim at
this concrete input (the run does still end `run-finished completed`). -/
theorem claim_C4_cex :
    ((processPromptDemo fidelityTools false
        (.ok [⟨"rebalancePortfolio", none⟩, ⟨"getPortfolio", none⟩]) none
        initialFidelityState).events).countP Event.isToolCallStart = 1 ∧
      ((processPromptDemo fidelityTools false
          (.ok [⟨"rebalancePortfolio", none⟩, ⟨"getPortfolio", none⟩]) none
          initialFidelityState).events).countP Event.isToolCallEnd = 0 ∧
      ((processPromptDemo fidelityTools false
          (.ok [⟨"rebalancePortfolio", none⟩, ⟨"getPortfolio", none⟩]) none
          initialFidelityState).events).countP Event.isToolCallResult = 0 ∧
      (processPromptDemo fidelityTools false
          (.ok [⟨"rebalancePortfolio", none⟩, ⟨"getPortfolio", none⟩]) none
          initialFidelityState).execLog = ["rebalancePortfolio"] :=
  ⟨rfl, rfl, rfl, rfl⟩

/-- C4 amended: in the starter-kit orchestrator the claim holds as
stated — every found call is executed regardless of earlier failures
(the execution log is exactly the found calls), every started call also
gets its `tool-call-ended` and `tool-call-result` (equal counts), a
throwing executable's result carries the serialized
`\x7bsuccess:false, error\x7d` payload (`outcomeEvents`/`failurePayload`), and
the run ends `run-finished completed`.  The demo orchestrator instead
aborts the tool loop at the first throwing executable: the events stop
with strictly more `started` than `ended`, the remaining calls are not
executed, and the run ends with `run-error` followed by `run-finished`
with status `completed`. -/
theorem claim_C4 {σ : Type} (tools : List (Tool σ)) (mode : LLMMode) (useRealLLM : Bool)
    (calls : List Call) (remote : Option String) (prompt : String) (s : σ) :
    ((processPromptSK tools mode (.ok calls) remote false prompt s).execLog =
        foundNames tools calls ∧
      (processPromptSK tools mode (.ok calls) remote false prompt s).events.countP
          Event.isToolCallStart = (foundNames tools calls).length ∧
      (processPromptSK tools mode (.ok calls) remote false prompt s).events.countP
          Event.isToolCallEnd = (foundNames tools calls).length ∧
      (processPromptSK tools mode (.ok calls) remote false prompt s).events.countP
          Event.isToolCallResult = (foundNames tools calls).length ∧
      (∀ (i : Nat) (m : String), outcomeEvents i i (.error m) =
        [.toolCallEnd i, .toolCallResult i i (failurePayload m)]) ∧
      (processPromptSK tools mode (.ok calls) remote false prompt s).events.getLast? =
        some (.runFinished 0 0 "completed")) ∧
    (∀ m : String, (runCallsDemo tools calls 1 s).thrown = some m →
      (processPromptDemo tools useRealLLM (.ok calls) remote s).events =
          .runStarted 0 0 :: ((runCallsDemo tools calls 1 s).events ++
            [.runError none m "EXECUTION_ERROR", .runFinished 0 0 "completed"]) ∧
        (runCallsDemo tools calls 1 s).events.countP Event.isToolCallStart =
          (runCallsDemo tools calls 1 s).events.countP Event.isToolCallEnd + 1) := by
  constructor
  · refine ⟨?_, ?_, ?_, ?_, fun i m => rfl, ?_⟩
    · unfold processPromptSK
      simp only [if_neg (by simp : ¬(false = true))]
      exact runCalls_execLog tools calls 1 s
    · unfold processPromptSK
      simp only [if_neg (by simp : ¬(false = true))]
      simp [List.countP_cons, List.countP_append, runCalls_countP_start,
        streamResponse_countP_toolStart, Event.isToolCallStart]
    · unfold processPromptSK
      simp only [if_neg (by simp : ¬(false = true))]
      simp [List.countP_cons, List.countP_append, runCalls_countP_end,
        streamResponse_countP_toolEnd, Event.isToolCallEnd]
    · unfold processPromptSK
      simp only [if_neg (by simp : ¬(false = true))]
      simp [List.countP_cons, List.countP_append, runCalls_countP_result,
        streamResponse_countP_toolResult, Event.isToolCallResult]
    · unfold processPromptSK
      simp only [if_neg (by simp : ¬(false = true))]
      rw [← List.cons_append, ← List.cons_append, getLast?_concat_one]
  · intro m hm
    constructor
    · unfold processPromptDemo processPromptDemoTail
      simp only [hm]
    · exact runCallsDemo_aborts tools calls 1 s m hm

/-- C4 witness: the amended claim applied with the fidelity registry at
the two-call list whose first call throws; the hypothesis
`thrown = some ...` is discharged by evaluation. -/
theorem claim_C4_witness :
    (processPromptSK fidelityTools ⟨false, false⟩
        (.ok [⟨"rebalancePortfolio", none⟩, ⟨"getPortfolio", none⟩]) none false "x"
        initialFidelityState).execLog =
      foundNames fidelityTools [⟨"rebalancePortfolio", none⟩, ⟨"getPortfolio", none⟩] ∧
    (processPromptDemo fidelityTools false
        (.ok [⟨"rebalancePortfolio", none⟩, ⟨"getPortfolio", none⟩]) none
        initialFidelityState).events =
      .runStarted 0 0 :: ((runCallsDemo fidelityTools
          [⟨"rebalancePortfolio", none⟩, ⟨"getPortfolio", none⟩] 1
          initialFidelityState).events ++
        [.runError none "Cannot read properties of undefined (reading \x27strategy\x27)"
          "EXECUTION_ERROR", .runFinished 0 0 "completed"]) := by
  have h := claim_C4 fidelityTools ⟨false, false⟩ false
    [⟨"rebalancePortfolio", none⟩, ⟨"getPortfolio", none⟩] none "x" initialFidelityState
  exact ⟨h.1.1,
    (h.2 "Cannot read properties of undefined (reading \x27strategy\x27)" rfl).1⟩

/-- C5: in the starter-kit orchestrator the execution log of a run is
exactly the found resolved calls, one entry per request, whatever the
mode and the response-generation path — no tool is executed a second
time.  The demo orchestrator violates this: in real-LLM mode its
`generateIntelligentResponse` re-executes every resolved tool to build
the response context, so the single resolved `rebalancePortfolio`
request of the prompt `make it more aggressive` is executed twice. -/
theorem claim_C5 {σ : Type} (tools : List (Tool σ)) (mode : LLMMode)
    (calls : List Call) (remote : Option String) (prompt : String) (s : σ) :
    (processPromptSK tools mode (.ok calls) remote false prompt s).execLog =
        foundNames tools calls ∧
      demoKeywords "make it more aggressive" =
        [⟨"rebalancePortfolio", some [("strategy", JVal.str "aggressive")]⟩] ∧
      (processPromptDemo fidelityTools true
          (.ok (demoKeywords "make it more aggressive")) none
          initialFidelityState).execLog = ["rebalancePortfolio", "rebalancePortfolio"] := by
  refine ⟨?_, rfl, rfl⟩
  unfold processPromptSK
  simp only [if_neg (by simp : ¬(false = true))]
  exact runCalls_execLog tools calls 1 s

/-- C7: whenever the remote completion call fails (network error,
non-success HTTP status, malformed body, or unparsable function-call
arguments), `getToolCallsFromOpenAI` returns exactly the local keyword
strategy's result on the same prompt — for the starter-kit resolver and
the demo resolver alike; the failure is absorbed, not rethrown (the
function is total into a plain list). -/
theorem claim_C7 (prompt : String) (remote : RemoteResult)
    (h : remoteFailed remote = true) :
    getToolCallsFromOpenAI skKeywords prompt remote = skKeywords prompt ∧
      getToolCallsFromOpenAI demoKeywords prompt remote = demoKeywords prompt := by
  rcases remote with m | ⟨st, stx⟩ | m | tcs
  · exact ⟨rfl, rfl⟩
  · exact ⟨rfl, rfl⟩
  · exact ⟨rfl, rfl⟩
  · simp only [remoteFailed] at h
    rcases hx : extractRemoteCalls tcs with m | parsed
    · constructor <;> simp [getToolCallsFromOpenAI, hx]
    · rw [hx] at h
      simp at h

/-- C7 witness at a concrete failing outcome. -/
theorem claim_C7_witness :
    getToolCallsFromOpenAI skKeywords "show data" (.networkFailure "fetch failed") =
        skKeywords "show data" ∧
      getToolCallsFromOpenAI demoKeywords "show data" (.networkFailure "fetch failed") =
        demoKeywords "show data" :=
  claim_C7 "show data" (.networkFailure "fetch failed") rfl

/-- C8: both keyword resolvers are deterministic total functions of the
prompt — equal prompts give equal ordered request lists (they are pure
Lean functions of the prompt alone; the embedding has no other inputs
because the source reads none) — and a prompt matching none of the rules
yields the empty list rather than an error. -/
theorem claim_C8 (p q : String) :
    (p = q → skKeywords p = skKeywords q ∧ demoKeywords p = demoKeywords q) ∧
      (noRuleMatchesSK p = true → skKeywords p = []) ∧
      (noRuleMatchesDemo p = true → demoKeywords p = []) := by
  refine ⟨fun hpq => by rw [hpq]; exact ⟨rfl, rfl⟩, fun h => ?_, fun h => ?_⟩
  · unfold noRuleMatchesSK at h
    simp only [Bool.not_eq_true', Bool.or_eq_false_iff] at h
    obtain ⟨⟨⟨h1, h2⟩, h3⟩, h4⟩ := h
    simp [skKeywords, h1, h2, h3, h4]
  · unfold noRuleMatchesDemo at h
    simp only [Bool.not_eq_true', Bool.or_eq_false_iff] at h
    obtain ⟨⟨⟨⟨⟨⟨h1, h2⟩, h3⟩, h4⟩, h5⟩, h6⟩, h7⟩ := h
    rcases hd : demoStrategyCmd (toLowerStr p) with _ | st
    · simp [demoKeywords, h1, h2, h3, h4, h5, h6, hd]
    · rw [hd] at h7
      simp at h7

/-- C8 witness: the rule-free prompt `hello`. -/
theorem claim_C8_witness :
    skKeywords "hello" = skKeywords "hello" ∧ demoKeywords "hello" = demoKeywords "hello" ∧
      skKeywords "hello" = [] ∧ demoKeywords "hello" = [] := by
  have h := claim_C8 "hello" "hello"
  exact ⟨(h.1 rfl).1, (h.1 rfl).2, h.2.1 rfl, h.2.2 rfl⟩

/-- C9: under the demo pipeline in local (keyword) mode, the prompt
`show my portfolio` resolves to exactly one request — `getPortfolio`
with an (absent, hence empty) argument object — whose execution succeeds
against the fidelity registry, producing exactly the event sequence
`run-started`, `tool-call-started`, `tool-call-ended`, a successful
`tool-call-result`, then a non-empty `text-message-content` naming the
tool, then `run-finished` with status `completed`. -/
theorem claim_C9 :
    demoKeywords "show my portfolio" = [⟨"getPortfolio", none⟩] ∧
      (Call.mk "getPortfolio" none).argsOrEmpty = [] ∧
      (processPromptDemo fidelityTools false (.ok (demoKeywords "show my portfolio"))
          none initialFidelityState).events =
        [.runStarted 0 0,
         .toolCallStart 1 "getPortfolio" 1,
         .toolCallEnd 1,
         .toolCallResult 1 1 (.obj
           [("allocation", .obj [("stocks", .num 50), ("bonds", .num 30),
              ("cash", .num 20)]),
            ("totalValue", .num 190000),
            ("riskLevel", .str "Moderate"),
            ("lastUpdated", .str "1970-01-01T00:00:00.000Z")]),
         .textMessageStart 2 "assistant",
         .textMessageContent 2 "I\x27ve executed the following tools for you: getPortfolio. The results are displayed in your portfolio above.",
         .textMessageEnd 2,
         .runFinished 0 0 "completed"] ∧
      containsSub "I\x27ve executed the following tools for you: getPortfolio. The results are displayed in your portfolio above."
        "getPortfolio" = true ∧
      "I\x27ve executed the following tools for you: getPortfolio. The results are displayed in your portfolio above." ≠ "" ∧
      (processPromptDemo fidelityTools false (.ok (demoKeywords "show my portfolio"))
          none initialFidelityState).state.portfolio = initialFidelityState.portfolio :=
  ⟨rfl, rfl, rfl, rfl, by decide, rfl⟩

/-- Sum of an allocation's three percentages. -/
def allocSum (a : Allocation) : Int :=
  a.stocks + a.bonds + a.cash

/-- C10: the demo application's allocation invariant.  The portfolio
starts at 50/30/20 (sum 100); `getPortfolio` and
`getRetirementProjection` never modify the allocation; and
`rebalancePortfolio`, given any argument object, replaces it with one of
exactly 70/20/10 (strategy `aggressive`), 60/30/10 (`moderate`) or
40/40/20 (any other, missing or unrecognized strategy), each summing to
100 — so stocks + bonds + cash = 100 always holds. -/
theorem claim_C10 :
    (initialFidelityState.portfolio = ⟨50, 30, 20⟩ ∧
      allocSum initialFidelityState.portfolio = 100) ∧
    (∀ (oargs : Option Args) (s : FidelityState),
      ((getPortfolioTool.execute oargs s).2).portfolio = s.portfolio) ∧
    (∀ (oargs : Option Args) (s : FidelityState),
      ((getRetirementProjectionTool.execute oargs s).2).portfolio = s.portfolio) ∧
    (∀ (args : Args) (s : FidelityState),
      ((rebalancePortfolioTool.execute (some args) s).2).portfolio ∈
          [(⟨70, 20, 10⟩ : Allocation), ⟨60, 30, 10⟩, ⟨40, 40, 20⟩] ∧
        allocSum (((rebalancePortfolioTool.execute (some args) s).2).portfolio) = 100 ∧
        (strategyIs args "aggressive" = true →
          ((rebalancePortfolioTool.execute (some args) s).2).portfolio = ⟨70, 20, 10⟩) ∧
        (strategyIs args "aggressive" = false → strategyIs args "moderate" = true →
          ((rebalancePortfolioTool.execute (some args) s).2).portfolio = ⟨60, 30, 10⟩) ∧
        (strategyIs args "aggressive" = false → strategyIs args "moderate" = false →
          ((rebalancePortfolioTool.execute (some args) s).2).portfolio = ⟨40, 40, 20⟩)) ∧
    (∀ (s : FidelityState), allocSum s.portfolio = 100 →
      ∀ (oargs : Option Args),
        allocSum (((rebalancePortfolioTool.execute oargs s).2).portfolio) = 100 ∧
          allocSum (((getPortfolioTool.execute oargs s).2).portfolio) = 100 ∧
          allocSum (((getRetirementProjectionTool.execute oargs s).2).portfolio) = 100) := by
  refine ⟨⟨rfl, rfl⟩, fun oargs s => rfl, fun oargs s => ?_, fun args s => ?_, fun s hs oargs => ?_⟩
  · rcases oargs with _ | a
    · rfl
    · rfl
  · by_cases h1 : strategyIs args "aggressive" <;> by_cases h2 : strategyIs args "moderate" <;>
      refine ⟨?_, ?_, fun ha => ?_, fun ha hm => ?_, fun ha hm => ?_⟩ <;>
      simp_all [rebalancePortfolioTool, allocSum, addToHistory]
  · have hreb : allocSum (((rebalancePortfolioTool.execute oargs s).2).portfolio) = 100 := by
      rcases oargs with _ | a
      · exact hs
      · by_cases h1 : strategyIs a "aggressive" <;> by_cases h2 : strategyIs a "moderate" <;>
          simp_all [rebalancePortfolioTool, allocSum, addToHistory]
    have hret : allocSum (((getRetirementProjectionTool.execute oargs s).2).portfolio) = 100 := by
      rcases oargs with _ | a
      · exact hs
      · exact hs
    exact ⟨hreb, hs, hret⟩

/-- C10 witness: the invariants applied at the initial state with an
`aggressive` rebalance. -/
theorem claim_C10_witness :
    ((rebalancePortfolioTool.execute (some [("strategy", JVal.str "aggressive")])
        initialFidelityState).2).portfolio = ⟨70, 20, 10⟩ ∧
      allocSum (((rebalancePortfolioTool.execute
        (some [("strategy", JVal.str "aggressive")]) initialFidelityState).2).portfolio) =
          100 := by
  have h := claim_C10
  exact ⟨(h.2.2.2.1 [("strategy", JVal.str "aggressive")] initialFidelityState).2.2.1 rfl,
    (h.2.2.2.2 initialFidelityState rfl
      (some [("strategy", JVal.str "aggressive")])).1⟩

end AgentPipeline
